import Mathlib

/-!
Verification of the CUDA forall dispatch layer
(`include/RAJA/exec-cuda/forall_cuda.hxx`).

The embedding models `Index_type` as `Int`. A device kernel is modelled as a
per-work-item function returning `Option` of the argument(s) the opaque loop
body would be invoked with (`none` for an out-of-range extra thread in a
partially filled final block). A host-side dispatch is modelled as the list of
loop-body invocations it produces — the work items of the launch enumerated as
`blockDim.x * blockIdx.x + threadIdx.x` over all blocks and threads — together
with a trace of device-facing events: the kernel launch with its geometry, the
status check `gpuErrchk(cudaPeekAtLastError())`, and the synchronization
`gpuErrchk(cudaDeviceSynchronize())` (whose return status is checked by
`gpuErrchk`).

Conversions: all claims carry the spec invariant that lengths are non-negative
(`§4.3: the system assumes callers never construct a domain with negative
length`), so `len = end - begin` is taken through `Int.toNat` and the theorems
carry the hypothesis `begin ≤ end` where it matters.
-/

namespace RAJA

/-- Index_type, the integer index type of the library (a signed integer). -/
abbrev Index_type := Int

/-- Device-facing events of a dispatch, in host issue order:
`launch g B` = a kernel launch with grid size `g` and block size `B`;
`check` = `gpuErrchk(cudaPeekAtLastError())`, a device status check;
`sync` = `gpuErrchk(cudaDeviceSynchronize())`, a device synchronization whose
return status is checked. -/
inductive Ev where
| launch (g B : Nat) : Ev
| check : Ev
| sync : Ev
deriving DecidableEq, BEq

/-- Grid size computed by every dispatch variant:
`size_t gridSize = (len + BLOCK_SIZE - 1) / BLOCK_SIZE;`
(`forall_cuda.hxx:150` and the corresponding line of each variant). -/
def gridSize (len B : Nat) : Nat := (len + B - 1) / B

/-- The work items of a launch with grid size `g` and block size `B`:
for each block `blk < g` and thread `thr < B`, the index
`ii = blockDim.x * blockIdx.x + threadIdx.x = B * blk + thr`
(`forall_cuda.hxx:62` and the corresponding line of each kernel). -/
def workItems (g B : Nat) : List Nat :=
(List.range g).flatMap (fun blk => (List.range B).map (fun thr => B * blk + thr))

/-- Kernel `forall_cuda_kernel(loop_body, begin, len)` at one work item `ii`:
`if (ii < len) loop_body(begin + ii)` (`forall_cuda.hxx:58-66`); the returned
value is the argument the loop body is invoked with, `none` when the extra
thread does nothing. -/
def forall_cuda_kernel (begin : Index_type) (len : Nat) (ii : Nat) :
    Option Index_type :=
if ii < len then some (begin + (ii : Int)) else none

/-- Kernel `forall_Icount_cuda_kernel(loop_body, begin, len, icount)` at one
work item: `if (ii < len) loop_body(ii + icount, ii + begin)`
(`forall_cuda.hxx:77-86`). -/
def forall_Icount_cuda_kernel (begin : Index_type) (len : Nat)
    (icount : Index_type) (ii : Nat) : Option (Index_type × Index_type) :=
if ii < len then some ((ii : Int) + icount, (ii : Int) + begin) else none

/-- Kernel `forall_cuda_kernel(loop_body, idx, length)` for an indirection
array at one work item: `if (ii < length) loop_body(idx[ii])`
(`forall_cuda.hxx:95-104`); the array is modelled as a list, the read
`idx[ii]` as `idx.getD ii 0` (in-bounds whenever `ii < length` and the
dispatch passes the array's true length). -/
def forall_cuda_kernel_indir (idx : List Index_type) (length : Nat)
    (ii : Nat) : Option Index_type :=
if ii < length then some (idx.getD ii 0) else none

/-- Kernel `forall_Icount_cuda_kernel(loop_body, idx, length, icount)` for an
indirection array at one work item: `if (ii < length)
loop_body(ii + icount, idx[ii])` (`forall_cuda.hxx:115-125`). -/
def forall_Icount_cuda_kernel_indir (idx : List Index_type) (length : Nat)
    (icount : Index_type) (ii : Nat) : Option (Index_type × Index_type) :=
if ii < length then some ((ii : Int) + icount, idx.getD ii 0) else none

/-- The invocation list of one launch of the range kernel over the given
geometry: every work item runs `forall_cuda_kernel`, out-of-range items
contribute nothing. -/
def launchRange (begin : Index_type) (len : Nat) (g B : Nat) :
    List Index_type :=
(workItems g B).filterMap (forall_cuda_kernel begin len)

/-- The invocation list of one launch of the counted range kernel. -/
def launchIcountRange (begin : Index_type) (len : Nat) (icount : Index_type)
    (g B : Nat) : List (Index_type × Index_type) :=
(workItems g B).filterMap (forall_Icount_cuda_kernel begin len icount)

/-- The invocation list of one launch of the indirection-array kernel. -/
def launchIndir (idx : List Index_type) (len : Nat) (g B : Nat) :
    List Index_type :=
(workItems g B).filterMap (forall_cuda_kernel_indir idx len)

/-- The invocation list of one launch of the counted indirection-array
kernel. -/
def launchIcountIndir (idx : List Index_type) (len : Nat)
    (icount : Index_type) (g B : Nat) : List (Index_type × Index_type) :=
(workItems g B).filterMap (forall_Icount_cuda_kernel_indir idx len icount)

/-- Result of a dispatch: the loop-body invocation arguments it produces and
its host-side event trace. -/
structure DispatchResult where
  invocations : List Index_type
  trace : List Ev
deriving DecidableEq

/-- Result of a counted dispatch: invocation argument pairs
`(icount, index)` and the event trace. -/
structure IcountResult where
  invocations : List (Index_type × Index_type)
  trace : List Ev
deriving DecidableEq

/-- Dispatch `forall(cuda_exec<BLOCK_SIZE>, begin, end, loop_body)`
(`forall_cuda.hxx:143-160`): `len = end - begin`,
`gridSize = (len + BLOCK_SIZE - 1) / BLOCK_SIZE`, launch the range kernel,
check the last error, synchronize. -/
def forall_cuda_exec (B : Nat) (begin e : Index_type) : DispatchResult :=
  let len := (e - begin).toNat
  let g := gridSize len B
  { invocations := launchRange begin len g B
    trace := [Ev.launch g B, Ev.check, Ev.sync] }

/-- Dispatch `forall(cuda_exec_async<BLOCK_SIZE>, begin, end, loop_body)`
(`forall_cuda.hxx:170-186`): identical to the synchronous variant except that
no `cudaDeviceSynchronize()` is performed after the launch. -/
def forall_cuda_exec_async (B : Nat) (begin e : Index_type) :
    DispatchResult :=
  let len := (e - begin).toNat
  let g := gridSize len B
  { invocations := launchRange begin len g B
    trace := [Ev.launch g B, Ev.check] }

/-- Dispatch `forall(cuda_exec<BLOCK_SIZE>, idx, len, loop_body)` for an
indirection array (`forall_cuda.hxx:404-421`). -/
def forall_cuda_exec_indir (B : Nat) (idx : List Index_type) (len : Nat) :
    DispatchResult :=
  let g := gridSize len B
  { invocations := launchIndir idx len g B
    trace := [Ev.launch g B, Ev.check, Ev.sync] }

/-- Dispatch `forall(cuda_exec_async<BLOCK_SIZE>, idx, len, loop_body)`
(`forall_cuda.hxx:431-446`). -/
def forall_cuda_exec_async_indir (B : Nat) (idx : List Index_type)
    (len : Nat) : DispatchResult :=
  let g := gridSize len B
  { invocations := launchIndir idx len g B
    trace := [Ev.launch g B, Ev.check] }

/-- Dispatch `forall_Icount(cuda_exec_async<BLOCK_SIZE>, begin, end, icount,
loop_body)` (`forall_cuda.hxx:232-251`). -/
def forall_Icount_cuda_exec_async (B : Nat) (begin e icount : Index_type) :
    IcountResult :=
  let len := (e - begin).toNat
  let g := gridSize len B
  { invocations := launchIcountRange begin len icount g B
    trace := [Ev.launch g B, Ev.check] }

/-- Dispatch `forall_Icount(cuda_exec_async<BLOCK_SIZE>, idx, len, icount,
loop_body)` (`forall_cuda.hxx:491-508`). -/
def forall_Icount_cuda_exec_async_indir (B : Nat) (idx : List Index_type)
    (len : Nat) (icount : Index_type) : IcountResult :=
  let g := gridSize len B
  { invocations := launchIcountIndir idx len icount g B
    trace := [Ev.launch g B, Ev.check] }

/-- A segment of an index set: a `RangeSegment` (begin, end) or a
`ListSegment` (indirection array); the begin/end and pointer/length accessors
of `forall_cuda.hxx:275-277,532-533` become the constructor fields. -/
inductive Seg where
| range (b e : Index_type) : Seg
| list (idx : List Index_type) : Seg
deriving DecidableEq

/-- Length of a segment: `end - begin` for a range segment, `getLength()` for
a list segment. -/
def segLength : Seg → Nat
| .range b e => (e - b).toNat
| .list idx => idx.length

/-- Modelled from the spec: `executeRangeList_forall`, called by the index-set
walker (`forall_cuda.hxx:672`) with policy `cuda_exec_async<BLOCK_SIZE>`, is
not under src/; per spec §4.4 it looks up the segment's domain-shape view and
dispatches it under the given (asynchronous) device policy. -/
def execSegment_async (B : Nat) : Seg → DispatchResult
| .range b e => forall_cuda_exec_async B b e
| .list idx => forall_cuda_exec_async_indir B idx idx.length

/-- Modelled from the spec: `executeRangeList_forall_Icount`, called by the
counted index-set walker (`forall_cuda.hxx:703`) with policy
`cuda_exec_async<BLOCK_SIZE>`, is not under src/; per spec §4.4 it dispatches
the segment's domain-shape view under the asynchronous device policy,
passing the running global index `icount`. -/
def execSegment_Icount_async (B : Nat) (s : Seg) (icount : Index_type) :
    IcountResult :=
match s with
| .range b e => forall_Icount_cuda_exec_async B b e icount
| .list idx => forall_Icount_cuda_exec_async_indir B idx idx.length icount

/-- Invocations of the segment loop of
`forall(IndexSet::ExecPolicy<seq_segit, cuda_exec>)`
(`forall_cuda.hxx:668-675`): each segment is dispatched in order under
`cuda_exec_async<BLOCK_SIZE>`. -/
def forall_iset_inv (B : Nat) : List Seg → List Index_type
| [] => []
| s :: rest => (execSegment_async B s).invocations ++ forall_iset_inv B rest

/-- Event trace of the segment loop of the index-set walker: the per-segment
asynchronous dispatch traces, in segment order. -/
def forall_iset_trace_segs (B : Nat) : List Seg → List Ev
| [] => []
| s :: rest => (execSegment_async B s).trace ++ forall_iset_trace_segs B rest

/-- Walker `forall(IndexSet::ExecPolicy<seq_segit, cuda_exec<BLOCK_SIZE>>,
iset, loop_body)` (`forall_cuda.hxx:662-679`): dispatch every segment under
the asynchronous policy, then one `gpuErrchk(cudaPeekAtLastError())` and one
`gpuErrchk(cudaDeviceSynchronize())` after all segments. -/
def forall_iset (B : Nat) (segs : List Seg) : DispatchResult :=
  { invocations := forall_iset_inv B segs
    trace := forall_iset_trace_segs B segs ++ [Ev.check, Ev.sync] }

/-- Modelled from the spec: the running global index of the counted walker.
`forall_Icount(IndexSet::ExecPolicy<seq_segit, cuda_exec>)`
(`forall_cuda.hxx:693-710`) passes each segment's `IndexSetSegInfo`, whose
stored icount is not under src/; per spec §4.4 the counter starts at 0 and
advances by the segment's length after each segment's dispatch. -/
def walkIcountInv (B : Nat) (icount : Index_type) :
    List Seg → List (Index_type × Index_type)
| [] => []
| s :: rest =>
    (execSegment_Icount_async B s icount).invocations ++
      walkIcountInv B (icount + (segLength s : Int)) rest

/-- Invocations of the counted index-set walker
(`forall_cuda.hxx:693-710`), starting from global index 0. -/
def forall_Icount_iset (B : Nat) (segs : List Seg) :
    List (Index_type × Index_type) :=
walkIcountInv B 0 segs

/-- Sum of the lengths of the segments before segment `k`. -/
def sumBefore (segs : List Seg) (k : Nat) : Nat :=
((segs.take k).map segLength).sum

/-- Total length of a segmented set. -/
def totalLen (segs : List Seg) : Nat :=
(segs.map segLength).sum

/-- Outcome of a walk over a device that may report errors: normal return, or
a fatal abort at segment `k`. -/
inductive WalkOutcome where
| ok : WalkOutcome
| fatal (k : Nat) : WalkOutcome
deriving DecidableEq

/-- Modelled from the spec: the index-set walker over a device that may fail.
`gpuErrchk` (not under src/) aborts fatally when the device reports an error
(spec §7: device errors are fatal, surfaced immediately, abort the current
walk). `fails k` says whether the device reports an error at segment `k`'s
post-issuance status check. The walker records, per issued segment, its index
and the trace of its asynchronous dispatch; on a failure it aborts without
dispatching any later segment. -/
def forall_iset_ft (B : Nat) (fails : Nat → Bool) :
    Nat → List Seg → List (Nat × List Ev) × WalkOutcome
| _, [] => ([], WalkOutcome.ok)
| k, s :: rest =>
    let tr := (execSegment_async B s).trace
    if fails k then ([(k, tr)], WalkOutcome.fatal k)
    else
      let r := forall_iset_ft B fails (k + 1) rest
      ((k, tr) :: r.1, r.2)

/-- The fault-aware walk over a whole segmented set, starting at segment 0. -/
def walk_ft (B : Nat) (fails : Nat → Bool) (segs : List Seg) :
    List (Nat × List Ev) × WalkOutcome :=
forall_iset_ft B fails 0 segs

/-- The work items of a launch are exactly the indices `0, …, g*B - 1`. -/
theorem workItems_eq (g B : Nat) : workItems g B = List.range (g * B) := by
  induction g with
  | zero => simp [workItems]
  | succ g ih =>
    rw [workItems, List.range_succ, List.flatMap_append]
    rw [show (List.range g).flatMap
        (fun blk => (List.range B).map (fun thr => B * blk + thr))
      = workItems g B from rfl, ih]
    have h2 : (g + 1) * B = g * B + B := by ring
    rw [h2, List.range_add]
    simp only [List.flatMap_cons, List.flatMap_nil, List.append_nil]
    congr 1
    apply List.map_congr_left
    intro t _
    ring

/-- Coverage: with a positive block size, the launch geometry provides at
least `len` work items. -/
theorem gridSize_cover (len B : Nat) (hB : 0 < B) :
    len ≤ gridSize len B * B := by
  have h := (Nat.div_lt_iff_lt_mul hB).mp
    (Nat.lt_succ_self ((len + B - 1) / B))
  have h2 : ((len + B - 1) / B + 1) * B = (len + B - 1) / B * B + B := by
    ring
  rw [h2] at h
  unfold gridSize
  omega

/-- Minimality: the launch geometry is the least number of blocks whose work
items cover the domain, i.e. `gridSize len B = ceil(len / B)`. -/
theorem gridSize_min (len B g : Nat) (hB : 0 < B) (h : len ≤ g * B) :
    gridSize len B ≤ g := by
  unfold gridSize
  have h1 : len + B - 1 ≤ B - 1 + g * B := by omega
  have h2 : (len + B - 1) / B ≤ (B - 1 + g * B) / B := Nat.div_le_div_right h1
  have h3 : (B - 1 + g * B) / B = (B - 1) / B + g := Nat.add_mul_div_right _ _ hB
  have h4 : (B - 1) / B = 0 := Nat.div_eq_of_lt (by omega)
  omega

/-- Filtering the guarded kernel body over all work items of a covering
enumeration yields exactly one invocation per in-range index. -/
theorem filterMap_range_if {α : Type} (f : Nat → α) :
    ∀ (m len : Nat), len ≤ m →
      (List.range m).filterMap (fun ii => if ii < len then some (f ii) else none)
        = (List.range len).map f := by
  intro m
  induction m with
  | zero =>
    intro len h
    have h0 : len = 0 := Nat.le_zero.mp h
    subst h0
    simp
  | succ m ih =>
    intro len h
    by_cases hlen : len ≤ m
    · rw [List.range_succ, List.filterMap_append, ih len hlen]
      have hm : ¬ (m < len) := Nat.not_lt.mpr hlen
      simp [hm]
    · have hlen1 : len = m + 1 := by omega
      subst hlen1
      have hcongr : ∀ x ∈ List.range (m + 1),
          (if x < m + 1 then some (f x) else none) = (some ∘ f) x := by
        intro x hx
        simp [List.mem_range.mp hx]
      rw [List.filterMap_congr hcongr, List.filterMap_eq_map]

/-- Covered launch of the range kernel: one invocation `begin + ii` per
`ii < len`, in work-item order. -/
theorem launchRange_eq (b : Int) (len g B : Nat) (h : len ≤ g * B) :
    launchRange b len g B = (List.range len).map (fun ii : Nat => b + (ii : Int)) := by
  unfold launchRange forall_cuda_kernel
  rw [workItems_eq]
  exact filterMap_range_if _ _ _ h

/-- Covered launch of the counted range kernel. -/
theorem launchIcountRange_eq (b : Int) (len : Nat) (ic : Int)
    (g B : Nat) (h : len ≤ g * B) :
    launchIcountRange b len ic g B
      = (List.range len).map (fun ii : Nat => ((ii : Int) + ic, (ii : Int) + b)) := by
  unfold launchIcountRange forall_Icount_cuda_kernel
  rw [workItems_eq]
  exact filterMap_range_if _ _ _ h

/-- Covered launch of the indirection kernel: one invocation per array
position, reading the array. -/
theorem launchIndir_eq (idx : List Int) (len g B : Nat)
    (h : len ≤ g * B) :
    launchIndir idx len g B = (List.range len).map (fun ii : Nat => idx.getD ii 0) := by
  unfold launchIndir forall_cuda_kernel_indir
  rw [workItems_eq]
  exact filterMap_range_if _ _ _ h

/-- Covered launch of the counted indirection kernel. -/
theorem launchIcountIndir_eq (idx : List Int) (len : Nat)
    (ic : Int) (g B : Nat) (h : len ≤ g * B) :
    launchIcountIndir idx len ic g B
      = (List.range len).map (fun ii : Nat => ((ii : Int) + ic, idx.getD ii 0)) := by
  unfold launchIcountIndir forall_Icount_cuda_kernel_indir
  rw [workItems_eq]
  exact filterMap_range_if _ _ _ h

/-- Reading every position of a list in order reproduces the list. -/
theorem map_getD_range (l : List Int) :
    (List.range l.length).map (fun ii : Nat => l.getD ii 0) = l := by
  induction l with
  | nil => simp
  | cons a t ih =>
    rw [List.length_cons, List.range_succ_eq_map, List.map_cons, List.map_map]
    have hc : ((fun ii : Nat => (a :: t).getD ii 0) ∘ Nat.succ)
        = (fun ii : Nat => t.getD ii 0) := by
      funext ii
      simp [List.getD_cons_succ]
    rw [hc, ih]
    simp

/-- Multiplicity of each value in the arithmetic index enumeration: each
integer in `[b, b + len)` occurs exactly once, anything else never. -/
theorem count_map_range_add (b : Int) (len : Nat) (j : Int) :
    ((List.range len).map (fun ii : Nat => b + (ii : Int))).count j
      = if b ≤ j ∧ j < b + (len : Int) then 1 else 0 := by
  induction len with
  | zero =>
    have h : ¬ (b ≤ j ∧ j < b + ((0 : Nat) : Int)) := by
      rintro ⟨h1, h2⟩
      push_cast at h2
      omega
    simp only [List.range_zero, List.map_nil, List.count_nil, if_neg h]
  | succ n ih =>
    rw [List.range_succ, List.map_append, List.count_append, ih]
    simp only [List.map_cons, List.map_nil, List.count_singleton]
    by_cases hj : j = b + (n : Int)
    · have h1 : ¬ (b ≤ j ∧ j < b + ((n : Nat) : Int)) := by
        rintro ⟨ha, hb2⟩
        omega
      have h2 : b ≤ j ∧ j < b + (((n + 1) : Nat) : Int) := by
        constructor
        · omega
        · push_cast
          omega
      have h3 : (b + (n : Int) == j) = true := by
        rw [beq_iff_eq]
        omega
      rw [if_neg h1, if_pos h2, if_pos h3]
    · have h3 : ¬ ((b + (n : Int) == j) = true) := by
        rw [beq_iff_eq]
        omega
      rw [if_neg h3]
      have hiff : (b ≤ j ∧ j < b + ((n : Nat) : Int))
          ↔ (b ≤ j ∧ j < b + (((n + 1) : Nat) : Int)) := by
        constructor
        · rintro ⟨ha, hb2⟩
          refine ⟨ha, ?_⟩
          push_cast at hb2 ⊢
          omega
        · rintro ⟨ha, hb2⟩
          refine ⟨ha, ?_⟩
          push_cast at hb2 ⊢
          omega
      rw [if_congr hiff rfl rfl]
      exact Nat.add_zero _

/-- Global-index components of one counted segment dispatch: a consecutive
run of `segLength s` integers starting at the passed counter. -/
theorem execIcount_fst (B : Nat) (hB : 0 < B) (s : Seg) (ic : Int) :
    (execSegment_Icount_async B s ic).invocations.map Prod.fst
      = (List.range (segLength s)).map (fun ii : Nat => (ii : Int) + ic) := by
  cases s with
  | range b e =>
    simp only [execSegment_Icount_async, forall_Icount_cuda_exec_async,
      segLength]
    rw [launchIcountRange_eq _ _ _ _ _ (gridSize_cover _ _ hB), List.map_map]
    rfl
  | list idx =>
    simp only [execSegment_Icount_async, forall_Icount_cuda_exec_async_indir,
      segLength]
    rw [launchIcountIndir_eq _ _ _ _ _ (gridSize_cover _ _ hB), List.map_map]
    rfl

/-- Shifting a `range` enumeration into the integers is the cast image of
`range'`. -/
theorem map_add_cast_range (p len : Nat) :
    (List.range len).map (fun ii : Nat => (ii : Int) + (p : Int))
      = (List.range' p len).map (fun n : Nat => (n : Int)) := by
  rw [List.range'_eq_map_range, List.map_map]
  apply List.map_congr_left
  intro x _
  simp only [Function.comp_apply]
  push_cast
  ring

/-- Global-index components of the counted walk started at counter `p`: the
consecutive integers `p, …, p + totalLen segs - 1`. -/
theorem walkIcountInv_fst (B : Nat) (hB : 0 < B) :
    ∀ (segs : List Seg) (p : Nat),
      (walkIcountInv B (p : Int) segs).map Prod.fst
        = (List.range' p (totalLen segs)).map (fun n : Nat => (n : Int)) := by
  intro segs
  induction segs with
  | nil =>
    intro p
    simp [walkIcountInv, totalLen]
  | cons s rest ih =>
    intro p
    rw [walkIcountInv, List.map_append, execIcount_fst B hB s _,
      map_add_cast_range]
    have hcast : ((p : Int) + ((segLength s : Nat) : Int))
        = (((p + segLength s : Nat)) : Int) := by
      push_cast
      ring
    rw [hcast, ih (p + segLength s)]
    have htot : totalLen (s :: rest) = segLength s + totalLen rest := by
      simp [totalLen]
    rw [htot, ← List.map_append]
    have hr : List.range' p (segLength s)
          ++ List.range' (p + segLength s) (totalLen rest)
        = List.range' p (segLength s + totalLen rest) := by
      have h := List.range'_append p (segLength s) (totalLen rest) 1
      rw [one_mul] at h
      rw [Nat.add_comm (totalLen rest) (segLength s)] at h
      exact h
    rw [hr]

/-- Head and tail of the running-sum accessor. -/
theorem sumBefore_zero (s : Seg) (rest : List Seg) :
    sumBefore (s :: rest) 0 = 0 := rfl

/-- Step of the running-sum accessor: the sum before segment `k+1` of a cons
is the head length plus the sum before segment `k` of the tail. -/
theorem sumBefore_succ (s : Seg) (rest : List Seg) (k : Nat) :
    sumBefore (s :: rest) (k + 1) = segLength s + sumBefore rest k := by
  simp [sumBefore, List.take_succ_cons]

/-- The counted walk started at counter `p` is the concatenation, in segment
order, of each segment's counted dispatch at counter `p` plus the lengths of
the earlier segments. -/
theorem walkIcountInv_blocks (B : Nat) :
    ∀ (segs : List Seg) (p : Nat),
      walkIcountInv B (p : Int) segs
        = ((List.range segs.length).map (fun k =>
            (execSegment_Icount_async B (segs.getD k (Seg.range 0 0))
              (((p + sumBefore segs k : Nat)) : Int)).invocations)).flatten := by
  intro segs
  induction segs with
  | nil =>
    intro p
    simp [walkIcountInv]
  | cons s rest ih =>
    intro p
    rw [walkIcountInv]
    have hcast : ((p : Int) + ((segLength s : Nat) : Int))
        = (((p + segLength s : Nat)) : Int) := by
      push_cast
      ring
    rw [hcast, ih (p + segLength s)]
    rw [List.length_cons, List.range_succ_eq_map, List.map_cons,
      List.flatten_cons, List.map_map]
    have htail : (List.map (fun k =>
          (execSegment_Icount_async B (rest.getD k (Seg.range 0 0))
            (((p + segLength s + sumBefore rest k : Nat)) : Int)).invocations)
          (List.range rest.length)).flatten
        = (List.map ((fun k =>
            (execSegment_Icount_async B ((s :: rest).getD k (Seg.range 0 0))
              (((p + sumBefore (s :: rest) k : Nat)) : Int)).invocations)
            ∘ Nat.succ) (List.range rest.length)).flatten := by
      congr 1
      apply List.map_congr_left
      intro k _
      simp only [Function.comp_apply]
      rw [show (s :: rest).getD (k + 1) (Seg.range 0 0)
          = rest.getD k (Seg.range 0 0) from List.getD_cons_succ]
      rw [sumBefore_succ, ← Nat.add_assoc]
    rw [htail]
    rfl

/-- Trace of one segment's dispatch under the asynchronous policy: a launch
with the ceil geometry for that segment, then a status check — and no
synchronization. -/
theorem segTrace_async (B : Nat) (s : Seg) :
    (execSegment_async B s).trace
      = [Ev.launch (gridSize (segLength s) B) B, Ev.check] := by
  cases s <;> rfl

/-- No synchronization event occurs anywhere in the per-segment portion of
the walker's trace. -/
theorem trace_segs_sync_count (B : Nat) (segs : List Seg) :
    (forall_iset_trace_segs B segs).count Ev.sync = 0 := by
  induction segs with
  | nil => rfl
  | cons s rest ih =>
    rw [forall_iset_trace_segs, List.count_append, ih, segTrace_async]
    rfl

/-- Exactly one status check per segment occurs in the per-segment portion of
the walker's trace. -/
theorem trace_segs_check_count (B : Nat) (segs : List Seg) :
    (forall_iset_trace_segs B segs).count Ev.check = segs.length := by
  induction segs with
  | nil => rfl
  | cons s rest ih =>
    rw [forall_iset_trace_segs, List.count_append, ih, segTrace_async,
      List.length_cons]
    have hc : List.count Ev.check
        [Ev.launch (gridSize (segLength s) B) B, Ev.check] = 1 := rfl
    rw [hc]
    omega

/-- Behavior of the fault-aware walk when the first device failure is at
relative segment `k`: segments `st, …, st + k` are issued, the outcome is a
fatal abort at `st + k`, and no later segment is dispatched. -/
theorem forall_iset_ft_spec (B : Nat) (fails : Nat → Bool) :
    ∀ (segs : List Seg) (st k : Nat), k < segs.length →
      fails (st + k) = true → (∀ j, j < k → fails (st + j) = false) →
      (forall_iset_ft B fails st segs).2 = WalkOutcome.fatal (st + k)
        ∧ (forall_iset_ft B fails st segs).1.map Prod.fst
            = List.range' st (k + 1) := by
  intro segs
  induction segs with
  | nil =>
    intro st k hk
    exact absurd hk (by simp)
  | cons s rest ih =>
    intro st k hk hf hmin
    cases k with
    | zero =>
      rw [Nat.add_zero] at hf
      rw [forall_iset_ft]
      simp [hf, List.range'_succ]
    | succ k' =>
      have h0 : fails st = false := by
        have h := hmin 0 (Nat.succ_pos k')
        simpa using h
      have hk' : k' < rest.length := by
        rw [List.length_cons] at hk
        omega
      have hf' : fails (st + 1 + k') = true := by
        rw [show st + 1 + k' = st + (k' + 1) by omega]
        exact hf
      have hmin' : ∀ j, j < k' → fails (st + 1 + j) = false := by
        intro j hj
        rw [show st + 1 + j = st + (j + 1) by omega]
        exact hmin (j + 1) (by omega)
      obtain ⟨ho, hm⟩ := ih (st + 1) k' hk' hf' hmin'
      rw [forall_iset_ft]
      simp only [h0, Bool.false_eq_true, if_false]
      constructor
      · rw [ho]
        congr 1
        omega
      · rw [List.map_cons, hm]
        exact (List.range'_succ st (k' + 1) 1).symm

/-- C1: dispatching over a contiguous range `[begin, end)` with a positive
block size invokes the loop body exactly once for each domain index in
`{begin, …, end-1}` and for no other index; work items past the end of the
domain in the partially filled final block invoke nothing. -/
theorem range_dispatch_exactly_once (B : Nat) (b e : Int)
    (hB : 0 < B) (hbe : b ≤ e) :
    (forall_cuda_exec B b e).invocations
        = (List.range (e - b).toNat).map (fun ii : Nat => b + (ii : Int))
      ∧ (∀ j : Int, (forall_cuda_exec B b e).invocations.count j
          = if b ≤ j ∧ j < e then 1 else 0)
      ∧ (∀ ii : Nat, (e - b).toNat ≤ ii →
          forall_cuda_kernel b (e - b).toNat ii = none) := by
  have hinv : (forall_cuda_exec B b e).invocations
      = (List.range (e - b).toNat).map (fun ii : Nat => b + (ii : Int)) := by
    show launchRange b ((e - b).toNat) (gridSize ((e - b).toNat) B) B = _
    exact launchRange_eq _ _ _ _ (gridSize_cover _ _ hB)
  refine ⟨hinv, ?_, ?_⟩
  · intro j
    rw [hinv, count_map_range_add]
    have hcast : b + (((e - b).toNat : Nat) : Int) = e := by
      rw [Int.toNat_of_nonneg (by omega : (0 : Int) ≤ e - b)]
      ring
    rw [hcast]
  · intro ii hii
    unfold forall_cuda_kernel
    rw [if_neg (Nat.not_lt.mpr hii)]

/-- Witness for C1 at the spec scenario ContiguousRange(10, 15) with block
size 4. -/
theorem range_dispatch_exactly_once_witness :
    0 < 4 ∧ (10 : Int) ≤ 15
      ∧ (forall_cuda_exec 4 10 15).invocations
          = (List.range ((15 : Int) - 10).toNat).map
              (fun ii : Nat => (10 : Int) + (ii : Int)) :=
  ⟨by decide, by decide,
    (range_dispatch_exactly_once 4 10 15 (by decide) (by decide)).1⟩

/-- C2: the counted walk over a segmented set supplies global indices
`0, …, totalLen - 1` with no gaps or duplicates; the counter passed into
segment `k` is the sum of the lengths of segments `0, …, k-1`; within each
segment the global indices form the contiguous run starting there; and the
whole walk is the concatenation of the per-segment counted dispatches in
segment order. -/
theorem counted_walk_global_indices (B : Nat) (segs : List Seg)
    (hB : 0 < B) :
    (forall_Icount_iset B segs).map Prod.fst
        = (List.range (totalLen segs)).map (fun n : Nat => (n : Int))
      ∧ (∀ k, k < segs.length →
          (execSegment_Icount_async B (segs.getD k (Seg.range 0 0))
              ((sumBefore segs k : Nat) : Int)).invocations.map Prod.fst
            = (List.range' (sumBefore segs k)
                (segLength (segs.getD k (Seg.range 0 0)))).map
                (fun n : Nat => (n : Int)))
      ∧ forall_Icount_iset B segs
          = ((List.range segs.length).map (fun k =>
              (execSegment_Icount_async B (segs.getD k (Seg.range 0 0))
                ((sumBefore segs k : Nat) : Int)).invocations)).flatten := by
  refine ⟨?_, ?_, ?_⟩
  · have h := walkIcountInv_fst B hB segs 0
    rw [Nat.cast_zero] at h
    rw [← List.range_eq_range'] at h
    exact h
  · intro k _
    rw [execIcount_fst B hB, map_add_cast_range]
  · have h := walkIcountInv_blocks B segs 0
    rw [Nat.cast_zero] at h
    simp only [Nat.zero_add] at h
    exact h

/-- Witness for C2 at the spec scenario: two segments of lengths 3 and 5,
block size 4; the global indices are 0, …, 7 in order. -/
theorem counted_walk_global_indices_witness :
    0 < 4 ∧ (forall_Icount_iset 4
          [Seg.range 10 13, Seg.list [7, 8, 9, 4, 5]]).map Prod.fst
        = (List.range (totalLen [Seg.range 10 13, Seg.list [7, 8, 9, 4, 5]])).map
            (fun n : Nat => (n : Int)) :=
  ⟨by decide, (counted_walk_global_indices 4
    [Seg.range 10 13, Seg.list [7, 8, 9, 4, 5]] (by decide)).1⟩

/-- C3: dispatching over an indirection array of length `L` invokes the loop
body once per array position with the value `idx[ii]` read from the array
(the whole invocation list is the array itself, in position order), and work
items past the end of the array invoke nothing. -/
theorem indir_dispatch_each_position_once (B : Nat) (idx : List Int)
    (len : Nat) (hB : 0 < B) (hlen : len = idx.length) :
    (forall_cuda_exec_indir B idx len).invocations = idx
      ∧ (∀ ii : Nat, len ≤ ii →
          forall_cuda_kernel_indir idx len ii = none) := by
  subst hlen
  refine ⟨?_, ?_⟩
  · show launchIndir idx idx.length (gridSize idx.length B) B = idx
    rw [launchIndir_eq _ _ _ _ (gridSize_cover _ _ hB), map_getD_range]
  · intro ii hii
    unfold forall_cuda_kernel_indir
    rw [if_neg (Nat.not_lt.mpr hii)]

/-- Witness for C3: a three-element indirection array (with a repeated
value) dispatched with block size 2. -/
theorem indir_dispatch_each_position_once_witness :
    0 < 2 ∧ (3 : Nat) = [(7 : Int), 3, 7].length
      ∧ (forall_cuda_exec_indir 2 [(7 : Int), 3, 7] 3).invocations
          = [(7 : Int), 3, 7] :=
  ⟨by decide, by decide,
    (indir_dispatch_each_position_once 2 [7, 3, 7] 3
      (by decide) (by decide)).1⟩

/-- C4: the launch geometry equals `ceil(len / BLOCK_SIZE)`: it is the least
block count whose work items cover the domain; block size 1 gives geometry
equal to the length; length 5 with block size 4 gives 2 blocks; and every
dispatch variant launches exactly this geometry. -/
theorem launch_geometry_ceil (B len : Nat) (hB : 0 < B) :
    (len ≤ gridSize len B * B
        ∧ ∀ g : Nat, len ≤ g * B → gridSize len B ≤ g)
      ∧ gridSize len 1 = len
      ∧ gridSize 5 4 = 2
      ∧ (∀ b e : Int, (forall_cuda_exec B b e).trace
          = [Ev.launch (gridSize (e - b).toNat B) B, Ev.check, Ev.sync])
      ∧ (∀ b e : Int, (forall_cuda_exec_async B b e).trace
          = [Ev.launch (gridSize (e - b).toNat B) B, Ev.check])
      ∧ (∀ idx l, (forall_cuda_exec_indir B idx l).trace
          = [Ev.launch (gridSize l B) B, Ev.check, Ev.sync])
      ∧ (∀ b e ic : Int, (forall_Icount_cuda_exec_async B b e ic).trace
          = [Ev.launch (gridSize (e - b).toNat B) B, Ev.check]) := by
  refine ⟨⟨gridSize_cover len B hB, fun g hg => gridSize_min len B g hB hg⟩,
    ?_, rfl, fun b e => rfl, fun b e => rfl, fun idx l => rfl,
    fun b e ic => rfl⟩
  unfold gridSize
  simp

/-- Witness for C4 at length 5, block size 4. -/
theorem launch_geometry_ceil_witness :
    0 < 4 ∧ (5 : Nat) ≤ gridSize 5 4 * 4 :=
  ⟨by decide, (launch_geometry_ceil 4 5 (by decide)).1.1⟩

/-- C5: the index-set walker dispatches each segment, sequentially in
increasing segment order, under the asynchronous variant of the device
policy (a launch followed by one status check and no synchronization), and
after all segments performs exactly one device status check followed by
exactly one device synchronization; no synchronization occurs between
segments. -/
theorem walker_async_single_sync (B : Nat) (segs : List Seg) :
    (forall_iset B segs).trace
        = forall_iset_trace_segs B segs ++ [Ev.check, Ev.sync]
      ∧ (forall_iset_trace_segs B segs).count Ev.sync = 0
      ∧ (forall_iset B segs).trace.count Ev.sync = 1
      ∧ (forall_iset B segs).trace.count Ev.check = segs.length + 1
      ∧ (∀ s ∈ segs, (execSegment_async B s).trace
          = [Ev.launch (gridSize (segLength s) B) B, Ev.check])
      ∧ (∀ s rest, forall_iset_inv B (s :: rest)
          = (execSegment_async B s).invocations ++ forall_iset_inv B rest) := by
  refine ⟨rfl, trace_segs_sync_count B segs, ?_, ?_,
    fun s _ => segTrace_async B s, fun s rest => rfl⟩
  · show (forall_iset_trace_segs B segs ++ [Ev.check, Ev.sync]).count Ev.sync
        = 1
    have h1 : List.count Ev.sync [Ev.check, Ev.sync] = 1 := rfl
    rw [List.count_append, trace_segs_sync_count, h1]
  · show (forall_iset_trace_segs B segs ++ [Ev.check, Ev.sync]).count Ev.check
        = segs.length + 1
    have h2 : List.count Ev.check [Ev.check, Ev.sync] = 1 := rfl
    rw [List.count_append, trace_segs_check_count, h2]

/-- Witness for C5 on a two-segment index set with block size 4. -/
theorem walker_async_single_sync_witness :
    (forall_iset 4 [Seg.range 10 15, Seg.list [2, 3]]).trace.count Ev.sync
      = 1 :=
  (walker_async_single_sync 4 [Seg.range 10 15, Seg.list [2, 3]]).2.2.1

/-- C6: if the device reports an error at segment `k`'s dispatch and no
earlier segment failed, the walk surfaces a fatal error at segment `k`:
exactly segments `0, …, k` were issued (already-issued segments are not
rolled back) and no segment with index greater than `k` is dispatched. -/
theorem segment_failure_aborts_walk (B k : Nat) (fails : Nat → Bool)
    (segs : List Seg) (hk : k < segs.length) (hf : fails k = true)
    (hmin : ∀ j, j < k → fails j = false) :
    (walk_ft B fails segs).2 = WalkOutcome.fatal k
      ∧ (walk_ft B fails segs).1.map Prod.fst = List.range (k + 1) := by
  obtain ⟨h1, h2⟩ := forall_iset_ft_spec B fails segs 0 k hk
    (by simpa using hf) (by intro j hj; simpa using hmin j hj)
  constructor
  · show (forall_iset_ft B fails 0 segs).2 = WalkOutcome.fatal k
    simpa using h1
  · show (forall_iset_ft B fails 0 segs).1.map Prod.fst = List.range (k + 1)
    rw [List.range_eq_range']
    exact h2

/-- Witness for C6 at the spec scenario: three segments, forced failure on
the second (index 1); the walk issues segments 0 and 1 only and aborts. -/
theorem segment_failure_aborts_walk_witness :
    1 < 3 ∧ (walk_ft 4 (fun j => j == 1)
          [Seg.range 0 2, Seg.range 2 4, Seg.range 4 6]).2
        = WalkOutcome.fatal 1
      ∧ (walk_ft 4 (fun j => j == 1)
          [Seg.range 0 2, Seg.range 2 4, Seg.range 4 6]).1.map Prod.fst
        = List.range 2 := by
  have h := segment_failure_aborts_walk 4 1 (fun j => j == 1)
    [Seg.range 0 2, Seg.range 2 4, Seg.range 4 6]
    (by decide) (by decide) (by decide)
  exact ⟨by decide, h.1, h.2⟩

/-- C7: dispatching over a zero-length range issues no work: the geometry is
zero blocks, the loop body is invoked zero times, and the dispatch completes
normally with its usual status check and synchronization. -/
theorem zero_length_dispatch_no_work (B : Nat) (b : Int) (hB : 0 < B) :
    (forall_cuda_exec B b b).invocations = []
      ∧ gridSize (b - b).toNat B = 0
      ∧ (forall_cuda_exec B b b).trace
          = [Ev.launch 0 B, Ev.check, Ev.sync] := by
  have hb0 : (b - b).toNat = 0 := by simp
  have hg : gridSize (b - b).toNat B = 0 := by
    rw [hb0]
    unfold gridSize
    apply Nat.div_eq_of_lt
    omega
  refine ⟨?_, hg, ?_⟩
  · show launchRange b ((b - b).toNat) (gridSize ((b - b).toNat) B) B = []
    rw [hg, hb0]
    rfl
  · show [Ev.launch (gridSize ((b - b).toNat) B) B, Ev.check, Ev.sync]
        = [Ev.launch 0 B, Ev.check, Ev.sync]
    rw [hg]

/-- Witness for C7 at begin = end = 5 with block size 3. -/
theorem zero_length_dispatch_no_work_witness :
    0 < 3 ∧ (forall_cuda_exec 3 5 5).invocations = [] :=
  ⟨by decide, (zero_length_dispatch_no_work 3 5 (by decide)).1⟩

/-- C9: walking an index set with zero segments produces no invocations and
no launches, still performs the trailing status check and synchronization,
and (for any device-failure pattern) the fault-aware walk returns normally
with nothing issued. -/
theorem walker_zero_segments (B : Nat) (fails : Nat → Bool) :
    (forall_iset B []).invocations = []
      ∧ (forall_iset B []).trace = [Ev.check, Ev.sync]
      ∧ walk_ft B fails [] = ([], WalkOutcome.ok) :=
  ⟨rfl, rfl, rfl⟩

/-- C10: over the same range, the synchronous dispatch (cuda_exec) and the
asynchronous dispatch (cuda_exec_async) compute the same launch geometry and
produce exactly the same loop-body invocations; their host traces differ
only by the trailing device synchronization (whose return status is the
second status check). -/
theorem sync_async_same_work (B : Nat) (b e : Int) :
    (forall_cuda_exec B b e).invocations
        = (forall_cuda_exec_async B b e).invocations
      ∧ (forall_cuda_exec B b e).trace
          = (forall_cuda_exec_async B b e).trace ++ [Ev.sync]
      ∧ (forall_cuda_exec B b e).trace.head?
          = some (Ev.launch (gridSize (e - b).toNat B) B)
      ∧ (forall_cuda_exec_async B b e).trace.head?
          = some (Ev.launch (gridSize (e - b).toNat B) B) :=
  ⟨rfl, rfl, rfl, rfl⟩

end RAJA
